import Mathlib

/-!
Verification of the mesh-dashboard synchronization and query layer.

This file gives a shallow embedding of the TypeScript source of the
repository and proves (or refutes) the testable properties of its
specification against that embedding.

Embedded components and their sources:
* message history pagination   — src/lib/server/nats.ts, fetchHistory
* full-text search             — src/lib/server/nats.ts, searchMessages
* KV membership store          — src/lib/server/nats.ts, getChannelMembers,
                                 addChannelMember
* presence reconciliation      — src/lib/nats-client.ts, connectNats
* connect-time event ordering  — src/lib/nats-client.ts, connectNats
* session request/reply bridge — src/lib/nats-client.ts,
                                 requestSessionHistory, sendSessionMessage
* publish rate limiter and
  subject validation           — the POST handler of the send endpoint

Modelling conventions: JavaScript numbers that the code only ever
compares and adds are embedded as `Int` (timestamps, counters) or `Nat`
(lengths, limits); strings are Lean `String`; `JSON.parse` failure is an
`Option` that is `none`; a JavaScript truthiness test on a number is a
comparison with 0, and on a string a comparison with the empty string.
-/

namespace MeshDashboard

/-! ### Data model (src/lib/types.ts)

`MessageEnvelope` is the wire shape of a channel message.  The server
code reads the fields `v`, `ts` and `content.text` defensively through
optional chaining, so `content` and `text` are embedded as `Option`;
the remaining fields (`id`, `from`, `to`, `replyTo`) are never examined
by the operations verified here and are represented by `id` alone. -/

structure MContent where
  text : Option String
  deriving DecidableEq

structure MessageEnvelope where
  v : Int
  id : String
  ts : Int
  content : Option MContent
  deriving DecidableEq

/-- Membership record stored in the MESH-MEMBERS KV bucket
(`MemberInfo` in src/lib/types.ts). -/
inductive MemberType where
  | human
  | ai
  deriving DecidableEq

structure MemberInfo where
  name : String
  type : MemberType
  joinedAt : Int
  deriving DecidableEq

/-- Presence record kept in the client's in-memory map
(`PresenceInfo` in src/lib/types.ts).  The code assigns `data.status`
verbatim, so `status` is an arbitrary string here. -/
structure PresenceInfo where
  agent : String
  type : String
  status : String
  lastSeen : Int
  deriving DecidableEq

/-! ### Shared string literals of the source -/

def onlineStatus : String := "online"

def offlineStatus : String := "offline"

def unknownLit : String := "unknown"

def presenceBucket : String := "MESH-PRESENCE"

def telemetryBucket : String := "MESH-TELEMETRY"

def channelSubject : String := "mesh.channel.general"

def systemSubject : String := "mesh.system.>"

def presenceSubject : String := "mesh.presence.>"

def telemetrySubject : String := "mesh.telemetry.>"

def receiptSubject : String := "mesh.receipt.>"

def meshChannelHead : String := "mesh.channel."

def meshDmHead : String := "mesh.dm."

/-- JavaScript `s.startsWith(p)`. -/
def strStartsWith (s p : String) : Bool := p.data.isPrefixOf s.data

/-- JavaScript `a || b` on a possibly-absent string: the default is used
when the field is missing or is the (falsy) empty string. -/
def orJS (o : Option String) (d : String) : String :=
  match o with
  | some s => if s = "" then d else s
  | none => d

/-! ### Stable sort by timestamp

Both `fetchHistory` and `searchMessages` end with
`list.sort((a, b) => a.ts - b.ts)`.  JavaScript `Array.prototype.sort`
is a stable ascending sort for this comparator; `sortByTs` models it as
a left-fold insertion sort, which is stable because each later element
is inserted after all earlier elements of equal timestamp. -/

def insertByTs (e : MessageEnvelope) : List MessageEnvelope → List MessageEnvelope
  | [] => [e]
  | x :: xs => if x.ts ≤ e.ts then x :: insertByTs e xs else e :: x :: xs

def sortByTs (l : List MessageEnvelope) : List MessageEnvelope :=
  l.foldl (fun acc e => insertByTs e acc) []

/-- Ascending-by-timestamp order on message lists. -/
def sortedByTs (l : List MessageEnvelope) : Prop :=
  l.Pairwise (fun a b => a.ts ≤ b.ts)

theorem insertByTs_perm (e : MessageEnvelope) (l : List MessageEnvelope) :
    List.Perm (insertByTs e l) (e :: l) := by
  induction l with
  | nil => simp [insertByTs]
  | cons x xs ih =>
    simp only [insertByTs]
    by_cases h : x.ts ≤ e.ts
    · rw [if_pos h]
      exact (ih.cons x).trans (List.Perm.swap e x xs)
    · rw [if_neg h]

theorem sortedByTs_insertByTs (e : MessageEnvelope) {l : List MessageEnvelope}
    (h : sortedByTs l) : sortedByTs (insertByTs e l) := by
  induction l with
  | nil => simp [insertByTs, sortedByTs]
  | cons x xs ih =>
    rcases (List.pairwise_cons.mp h) with ⟨hx, hxs⟩
    simp only [sortedByTs, insertByTs]
    by_cases hc : x.ts ≤ e.ts
    · rw [if_pos hc]
      refine List.pairwise_cons.mpr ⟨?_, ih hxs⟩
      intro b hb
      rcases List.mem_cons.mp ((insertByTs_perm e xs).mem_iff.mp hb) with hbe | hbxs
      · simpa [hbe] using hc
      · exact hx b hbxs
    · rw [if_neg hc]
      refine List.pairwise_cons.mpr ⟨?_, h⟩
      intro b hb
      rcases List.mem_cons.mp hb with hbx | hbxs
      · subst hbx
        exact le_of_lt (lt_of_not_le hc)
      · exact le_trans (le_of_lt (lt_of_not_le hc)) (hx b hbxs)

theorem sortByTs_perm (l : List MessageEnvelope) : List.Perm (sortByTs l) l := by
  have key : ∀ (l acc : List MessageEnvelope),
      List.Perm (l.foldl (fun acc e => insertByTs e acc) acc) (acc ++ l) := by
    intro l
    induction l with
    | nil => intro acc; simp
    | cons x xs ih =>
      intro acc
      have h1 : (x :: xs).foldl (fun acc e => insertByTs e acc) acc
          = xs.foldl (fun acc e => insertByTs e acc) (insertByTs x acc) := by
        simp [List.foldl_cons]
      rw [h1]
      refine (ih (insertByTs x acc)).trans ?_
      refine (((insertByTs_perm x acc).append_right xs).trans ?_)
      exact List.perm_middle.symm
  simpa using key l []

theorem sortedByTs_sortByTs (l : List MessageEnvelope) : sortedByTs (sortByTs l) := by
  have key : ∀ (l acc : List MessageEnvelope), sortedByTs acc →
      sortedByTs (l.foldl (fun acc e => insertByTs e acc) acc) := by
    intro l
    induction l with
    | nil => intro acc h; simpa using h
    | cons x xs ih =>
      intro acc h
      simpa [List.foldl_cons] using ih (insertByTs x acc) (sortedByTs_insertByTs x h)
  exact key l [] (by simp [sortedByTs])

/-! ### HistoryReader (src/lib/server/nats.ts, fetchHistory)

The channel log is embedded as a list of parse outcomes: `none` is a
malformed entry that `JSON.parse` rejects (skipped silently), `some e`
is a parsed envelope.  The scan keeps envelopes with `v === 1`, sorts
them ascending by `ts`, filters with `ts < before` when `before` is
truthy (a `before` of 0 is falsy in JavaScript and disables the
filter), and returns `filtered.slice(-limit)`, whose JavaScript
semantics for `limit = 0` is `slice(0)` — the whole array. -/

def parsedV1 (log : List (Option MessageEnvelope)) : List MessageEnvelope :=
  (log.filterMap id).filter (fun e => e.v == 1)

/-- JavaScript `l.slice(-n)` for a natural `n`. -/
def takeLastJS (n : Nat) (l : List MessageEnvelope) : List MessageEnvelope :=
  if n = 0 then l else l.drop (l.length - n)

structure HistoryPage where
  messages : List MessageEnvelope
  hasMore : Bool
  deriving DecidableEq

def fetchHistory (log : List (Option MessageEnvelope)) (before : Option Int)
    (limit : Nat) : HistoryPage :=
  let sorted := sortByTs (parsedV1 log)
  let filtered :=
    match before with
    | some b => if b = 0 then sorted else sorted.filter (fun m => decide (m.ts < b))
    | none => sorted
  { messages := takeLastJS limit filtered
    hasMore := decide (filtered.length > limit) }

/-- Number of parsed version-1 envelopes in the log whose timestamp is
strictly below the cutoff — the page-qualifying messages. -/
def qualifyingCount (log : List (Option MessageEnvelope)) (b : Int) : Nat :=
  ((parsedV1 log).filter (fun m => decide (m.ts < b))).length

/-- Concrete one-entry channel log used by the counterexample and
witness instances: a single well-formed version-1 envelope at `ts = 5`. -/
def hEnv0 : MessageEnvelope := { v := 1, id := "m1", ts := 5, content := none }

def hLog0 : List (Option MessageEnvelope) := [some hEnv0]

theorem mem_parsedV1 {log : List (Option MessageEnvelope)} {m : MessageEnvelope}
    (h : m ∈ parsedV1 log) : some m ∈ log ∧ m.v = 1 := by
  rcases List.mem_filter.mp h with ⟨hmem, hv⟩
  refine ⟨?_, by simpa using hv⟩
  rcases List.mem_filterMap.mp hmem with ⟨a, ha, hid⟩
  have ha2 : a = some m := hid
  rw [ha2] at ha
  exact ha

/-- C1 fails as stated: a call with `before = 0` and `limit = 0` is
legal, but `0` is falsy in JavaScript, so the `before` filter is
skipped and `slice(-0)` returns the whole array.  On a log holding one
version-1 envelope at `ts = 5` the page returned for `before = 0`,
`limit = 0` contains that envelope — violating the timestamp cutoff,
the length bound, and the `hasMore` characterization at once. -/
theorem fetchHistory_limit_zero_counterexample :
    (fetchHistory hLog0 (some 0) 0).messages = [hEnv0] ∧
    ¬ ((fetchHistory hLog0 (some 0) 0).messages.length ≤ 0) ∧
    ¬ (hEnv0.ts < 0) ∧
    (fetchHistory hLog0 (some 0) 0).hasMore = true ∧
    qualifyingCount hLog0 0 = 0 := by
  decide

/-- C1 (amended): for every channel log, every truthy cutoff `T ≠ 0`
and every positive `limit L`, the page returned by `fetchHistory`
contains only parsed version-1 envelopes from the log with timestamp
strictly below `T`, is sorted ascending by timestamp, has length at
most `L`, and `hasMore` holds iff strictly more than `L` qualifying
messages exist.  (The original claim also covered `T = 0` and `L = 0`,
where it fails; see the counterexample.) -/
theorem fetchHistory_page_spec (log : List (Option MessageEnvelope)) (T : Int) (L : Nat)
    (hT : T ≠ 0) (hL : 1 ≤ L) :
    (∀ m ∈ (fetchHistory log (some T) L).messages,
        some m ∈ log ∧ m.v = 1 ∧ m.ts < T) ∧
    sortedByTs (fetchHistory log (some T) L).messages ∧
    (fetchHistory log (some T) L).messages.length ≤ L ∧
    ((fetchHistory log (some T) L).hasMore = true ↔ L < qualifyingCount log T) := by
  have hL0 : L ≠ 0 := by omega
  have hpage : fetchHistory log (some T) L =
      { messages := takeLastJS L ((sortByTs (parsedV1 log)).filter (fun m => decide (m.ts < T)))
        hasMore := decide (((sortByTs (parsedV1 log)).filter
          (fun m => decide (m.ts < T))).length > L) } := by
    simp [fetchHistory, hT]
  set filtered := (sortByTs (parsedV1 log)).filter (fun m => decide (m.ts < T)) with hfil
  have hmsgs : (fetchHistory log (some T) L).messages
      = filtered.drop (filtered.length - L) := by
    rw [hpage]
    simp [takeLastJS, hL0]
  have hdropsub : filtered.drop (filtered.length - L) ⊆ filtered :=
    (List.drop_sublist _ _).subset
  have hlen_eq : filtered.length = qualifyingCount log T := by
    have hperm := (sortByTs_perm (parsedV1 log)).filter (fun m => decide (m.ts < T))
    simpa [qualifyingCount, hfil] using hperm.length_eq
  refine ⟨?_, ?_, ?_, ?_⟩
  · intro m hm
    rw [hmsgs] at hm
    have hmf : m ∈ filtered := hdropsub hm
    rcases List.mem_filter.mp hmf with ⟨hms, hlt⟩
    have hmp : m ∈ parsedV1 log := (sortByTs_perm (parsedV1 log)).mem_iff.mp hms
    rcases mem_parsedV1 hmp with ⟨hlog, hv⟩
    exact ⟨hlog, hv, by simpa using hlt⟩
  · rw [hmsgs]
    have hs : sortedByTs filtered :=
      (sortedByTs_sortByTs (parsedV1 log)).sublist (List.filter_sublist _)
    exact hs.sublist (List.drop_sublist _ _)
  · rw [hmsgs]
    simp only [List.length_drop]
    omega
  · have hhm : (fetchHistory log (some T) L).hasMore = decide (filtered.length > L) := by
      rw [hpage]
    rw [hhm, hlen_eq]
    simp

/-- Witness for `fetchHistory_page_spec` at the concrete log `hLog0`,
cutoff 10 and limit 1. -/
theorem fetchHistory_page_spec_witness :
    ((10 : Int) ≠ 0 ∧ 1 ≤ 1) ∧
    ((∀ m ∈ (fetchHistory hLog0 (some 10) 1).messages,
        some m ∈ hLog0 ∧ m.v = 1 ∧ m.ts < 10) ∧
     sortedByTs (fetchHistory hLog0 (some 10) 1).messages ∧
     (fetchHistory hLog0 (some 10) 1).messages.length ≤ 1 ∧
     ((fetchHistory hLog0 (some 10) 1).hasMore = true ↔ 1 < qualifyingCount hLog0 10)) :=
  ⟨⟨by decide, by decide⟩, fetchHistory_page_spec hLog0 10 1 (by decide) (by decide)⟩

/-! ### SearchScanner (src/lib/server/nats.ts, searchMessages)

The scan walks the channel log in delivery order.  At the top of each
iteration it consults the wall clock (`Date.now() - startTime >
TIMEOUT_MS`), embedded as a Boolean schedule `timeoutAt : Nat → Bool`
indexed by the iteration number; `noDeadline` is the run in which the
5-second deadline never elapses.  A match is a parsed envelope with
`v === 1` whose lowercased `content.text` contains the lowercased
query; `total` counts every match while `results` is capped at
`MAX_RESULTS` and `truncated` is set when the cap is exceeded (or on
timeout). -/

def MAX_RESULTS : Nat := 100

/-- JavaScript `haystack.includes(needle)` on characters. -/
def containsSub (needle : List Char) : List Char → Bool
  | [] => needle.isEmpty
  | c :: rest => needle.isPrefixOf (c :: rest) || containsSub needle rest

/-- The match predicate of the scan:
`envelope.v === 1 && envelope.content?.text?.toLowerCase().includes(lowerQuery)`. -/
def matchesQuery (query : String) (e : MessageEnvelope) : Bool :=
  e.v == 1 &&
    (match e.content with
     | some c =>
       match c.text with
       | some t => containsSub (query.data.map Char.toLower) (t.data.map Char.toLower)
       | none => false
     | none => false)

def searchLoop (query : String) :
    List (Option MessageEnvelope) → (Nat → Bool) → Nat →
    List MessageEnvelope → Nat → Bool → List MessageEnvelope × Nat × Bool
  | [], _, _, results, total, truncated => (results, total, truncated)
  | e :: rest, timeoutAt, i, results, total, truncated =>
    if timeoutAt i then (results, total, true)
    else
      match e with
      | none => searchLoop query rest timeoutAt (i + 1) results total truncated
      | some env =>
        if matchesQuery query env then
          if results.length < MAX_RESULTS then
            searchLoop query rest timeoutAt (i + 1) (results ++ [env]) (total + 1) truncated
          else
            searchLoop query rest timeoutAt (i + 1) results (total + 1) true
        else
          searchLoop query rest timeoutAt (i + 1) results total truncated

structure SearchOutcome where
  results : List MessageEnvelope
  total : Nat
  truncated : Bool
  deriving DecidableEq

def searchMessages (log : List (Option MessageEnvelope)) (query : String)
    (timeoutAt : Nat → Bool) : SearchOutcome :=
  let s := searchLoop query log timeoutAt 0 [] 0 false
  { results := sortByTs s.1, total := s.2.1, truncated := s.2.2 }

/-- The run in which the 5-second search deadline never elapses. -/
def noDeadline : Nat → Bool := fun _ => false

/-- Number of matching parsed envelopes in the whole log. -/
def countMatches (query : String) (log : List (Option MessageEnvelope)) : Nat :=
  (log.filterMap id).countP (matchesQuery query)

theorem searchLoop_noDeadline_inv (query : String) :
    ∀ (entries : List (Option MessageEnvelope)) (i : Nat)
      (results : List MessageEnvelope) (total : Nat),
      results.length = min total MAX_RESULTS →
      (searchLoop query entries noDeadline i results total
          (decide (total > MAX_RESULTS))).2.1 = total + countMatches query entries ∧
      (searchLoop query entries noDeadline i results total
          (decide (total > MAX_RESULTS))).1.length
        = min (total + countMatches query entries) MAX_RESULTS ∧
      (searchLoop query entries noDeadline i results total
          (decide (total > MAX_RESULTS))).2.2
        = decide (total + countMatches query entries > MAX_RESULTS) := by
  intro entries
  induction entries with
  | nil =>
    intro i results total hlen
    simp [searchLoop, countMatches, hlen]
  | cons e rest ih =>
    intro i results total hlen
    match e with
    | none =>
      have hcm : countMatches query (none :: rest) = countMatches query rest := by
        simp [countMatches]
      simpa [searchLoop, noDeadline, hcm] using ih (i + 1) results total hlen
    | some env =>
      by_cases hm : matchesQuery query env
      · have hcm : countMatches query (some env :: rest) = countMatches query rest + 1 := by
          simp [countMatches, List.countP_cons, hm]
        by_cases hcap : results.length < MAX_RESULTS
        · have htot : total < MAX_RESULTS := by
            rw [hlen] at hcap
            omega
          have htr : (decide (total > MAX_RESULTS)) = (decide (total + 1 > MAX_RESULTS)) := by
            simp only [decide_eq_decide]
            omega
          have hlen2 : (results ++ [env]).length = min (total + 1) MAX_RESULTS := by
            simp [hlen]
            omega
          have h := ih (i + 1) (results ++ [env]) (total + 1) hlen2
          have harith : total + (countMatches query rest + 1)
              = (total + 1) + countMatches query rest := by omega
          rw [htr]
          simp only [searchLoop, noDeadline, hm, hcap, if_true, if_false, hcm]
          simp only [Bool.false_eq_true, if_false, if_true]
          rw [harith]
          exact h
        · have htot : MAX_RESULTS ≤ total := by
            rw [hlen] at hcap
            omega
          have hlen2 : results.length = min (total + 1) MAX_RESULTS := by
            rw [hlen]
            omega
          have h := ih (i + 1) results (total + 1) hlen2
          have htrue : (true : Bool) = decide (total + 1 > MAX_RESULTS) := by
            have hgt : total + 1 > MAX_RESULTS := by omega
            simp [hgt]
          have harith : total + (countMatches query rest + 1)
              = (total + 1) + countMatches query rest := by omega
          simp only [searchLoop, noDeadline, hm, hcap, if_true, if_false, hcm]
          simp only [Bool.false_eq_true, if_false, if_true]
          rw [htrue, harith]
          exact h
      · have hcm : countMatches query (some env :: rest) = countMatches query rest := by
          simp [countMatches, List.countP_cons, hm]
        simpa [searchLoop, noDeadline, hm, hcm] using ih (i + 1) results total hlen

/-- C2: for every channel log and query, when no timeout occurs the
search returns `total` equal to the number `N` of parsed version-1
envelopes whose `content.text` contains the query case-insensitively,
`truncated` true exactly when `N > 100`, at most 100 results, and the
results sorted ascending by timestamp. -/
theorem searchMessages_spec (log : List (Option MessageEnvelope)) (query : String) :
    (searchMessages log query noDeadline).total = countMatches query log ∧
    ((searchMessages log query noDeadline).truncated
      = decide (countMatches query log > 100)) ∧
    (searchMessages log query noDeadline).results.length ≤ 100 ∧
    sortedByTs (searchMessages log query noDeadline).results := by
  have hfalse : (false : Bool) = decide ((0 : Nat) > MAX_RESULTS) := by decide
  have h := searchLoop_noDeadline_inv query log 0 [] 0 (by simp)
  rw [← hfalse] at h
  have hres : (searchMessages log query noDeadline).results
      = sortByTs (searchLoop query log noDeadline 0 [] 0 false).1 := rfl
  have htot : (searchMessages log query noDeadline).total
      = (searchLoop query log noDeadline 0 [] 0 false).2.1 := rfl
  have htr : (searchMessages log query noDeadline).truncated
      = (searchLoop query log noDeadline 0 [] 0 false).2.2 := rfl
  refine ⟨?_, ?_, ?_, ?_⟩
  · rw [htot, h.1]
    omega
  · rw [htr, h.2.2]
    simp only [Nat.zero_add, MAX_RESULTS]
  · rw [hres]
    have hperm := sortByTs_perm (searchLoop query log noDeadline 0 [] 0 false).1
    rw [hperm.length_eq, h.2.1]
    simp [MAX_RESULTS]
  · rw [hres]
    exact sortedByTs_sortByTs _

/-! ### MembershipStore (src/lib/server/nats.ts)

The MESH-MEMBERS KV bucket is embedded as a total map from key to a
stored value: `missing` (no entry, `kv.get` yields nothing), `tombstone`
(a delete marker whose `entry.value` is empty — the code's
`entry.value.length > 0` guard treats it as absent), or `val info` (a
live JSON record). -/

inductive MembersKvVal where
  | missing
  | tombstone
  | val (info : MemberInfo)
  deriving DecidableEq

abbrev MembersStore := String → MembersKvVal

/-- The key-space head of a channel, `channel + '.'`. -/
def memberKeyHead (channel : String) : String := channel ++ "."

/-- The membership key `channel + '.' + name`. -/
def memberKey (channel name : String) : String := memberKeyHead channel ++ name

/-- `kv.put(key, JSON.stringify(info))`. -/
def kvPutMember (store : MembersStore) (key : String) (info : MemberInfo) : MembersStore :=
  fun x => if x = key then .val info else store x

/-- addChannelMember: look the key up first and return without writing
when a live record already exists (`// already a member`); otherwise
store `{ name, type, joinedAt: Date.now() }`. -/
def addChannelMember (store : MembersStore) (channel name : String)
    (mtype : MemberType) (now : Int) : MembersStore :=
  let key := memberKey channel name
  match store key with
  | .val _ => store
  | _ => kvPutMember store key { name := name, type := mtype, joinedAt := now }

/-- Observable KV operations that getChannelMembers issues against the
bucket: one `keyListed` per key yielded by the `kv.keys()` iterator,
`keysDrained` when that iterator is consumed to completion (the first
`for await` loop ends), and one `valueFetched` per `kv.get` call of the
second loop. -/
inductive MembersKvEv where
  | keyListed (key : String)
  | keysDrained
  | valueFetched (key : String)
  deriving DecidableEq

/-- getChannelMembers as a run over the bucket: `keys` is what the
`kv.keys()` iterator yields, `store` resolves each `kv.get`.  Returns
the emitted KV-operation trace and the collected member list.  The
two sequential loops of the source appear as the two appended trace
segments around `keysDrained`. -/
def getChannelMembersRun (channel : String) (keys : List String)
    (store : MembersStore) : List MembersKvEv × List MemberInfo :=
  let matchingKeys := keys.filter (fun k => strStartsWith k (memberKeyHead channel))
  (keys.map .keyListed ++ [.keysDrained] ++ matchingKeys.map .valueFetched,
   matchingKeys.filterMap (fun k =>
     match store k with
     | .val info => some info
     | _ => none))

/-- Detects a violation of the two-phase enumeration protocol: a
`valueFetched` operation occurring before the key listing has been
drained. -/
def fetchBeforeKeysDrained : List MembersKvEv → Bool
  | [] => false
  | .keysDrained :: _ => false
  | .valueFetched _ :: _ => true
  | .keyListed _ :: rest => fetchBeforeKeysDrained rest

/-- C3: in every run of getChannelMembers, the key listing is fully
drained into a local collection before any value fetch is issued — the
trace never shows a `kv.get` before the key iterator completed. -/
theorem getChannelMembers_two_phase (channel : String) (keys : List String)
    (store : MembersStore) :
    fetchBeforeKeysDrained (getChannelMembersRun channel keys store).1 = false := by
  have key : ∀ (ks : List String) (rest : List MembersKvEv),
      fetchBeforeKeysDrained (ks.map .keyListed ++ .keysDrained :: rest) = false := by
    intro ks
    induction ks with
    | nil => intro rest; simp [fetchBeforeKeysDrained]
    | cons k ks ih => intro rest; simpa [fetchBeforeKeysDrained] using ih rest
  simpa [getChannelMembersRun] using
    key keys ((keys.filter (fun k => strStartsWith k (memberKeyHead channel))).map .valueFetched)

/-- C6: adding the same member twice leaves the store of the first
call unchanged — the second call is a read-only no-op, so the single
record for the key, including its `joinedAt` from the first call,
survives even though the second call runs at a different time. -/
theorem addChannelMember_idempotent (store : MembersStore) (channel name : String)
    (mtype : MemberType) (t1 t2 : Int) :
    addChannelMember (addChannelMember store channel name mtype t1) channel name mtype t2
      = addChannelMember store channel name mtype t1 ∧
    ∃ info : MemberInfo,
      (addChannelMember store channel name mtype t1) (memberKey channel name)
        = .val info := by
  constructor
  · cases hv : store (memberKey channel name) with
    | val info =>
      simp [addChannelMember, hv]
    | missing =>
      simp [addChannelMember, hv, kvPutMember]
    | tombstone =>
      simp [addChannelMember, hv, kvPutMember]
  · cases hv : store (memberKey channel name) with
    | val info =>
      exact ⟨info, by simp [addChannelMember, hv]⟩
    | missing =>
      exact ⟨{ name := name, type := mtype, joinedAt := t1 },
        by simp [addChannelMember, hv, kvPutMember]⟩
    | tombstone =>
      exact ⟨{ name := name, type := mtype, joinedAt := t1 },
        by simp [addChannelMember, hv, kvPutMember]⟩

/-! ### PresenceReconciler (src/lib/nats-client.ts, connectNats)

The client's presence map is a JavaScript `Map<string, PresenceInfo>`,
embedded as a total function to `Option PresenceInfo`.  Three sources
mutate the same map:

* the KV snapshot loop inserts every entry with a non-empty value,
  unconditionally;
* the KV watch loop deletes the key on `DEL`/`PURGE`, and on a put
  deletes the agent when `status === 'offline'` or replaces the entry
  otherwise;
* the pub/sub fallback handler applies the same offline-deletes /
  otherwise-replaces rule, taking the agent from the last segment of
  the message subject.

A raw record is the parsed JSON payload; its fields are all read
defensively with `||` defaults. -/

structure RawPresence where
  name : Option String
  type : Option String
  status : Option String
  lastSeen : Option Int
  deriving DecidableEq

abbrev PresenceMap := String → Option PresenceInfo

def mapSet (m : PresenceMap) (k : String) (v : PresenceInfo) : PresenceMap :=
  fun x => if x = k then some v else m x

def mapDelete (m : PresenceMap) (k : String) : PresenceMap :=
  fun x => if x = k then none else m x

/-- The `PresenceInfo` built by the snapshot and watch handlers:
`agent = data.name || key`, `type = data.type || 'unknown'`,
`status = data.status || 'online'`, and `lastSeen` from the record when
truthy else `Date.now()`. -/
def mkPresenceInfo (d : RawPresence) (key : String) (now : Int) : PresenceInfo :=
  { agent := orJS d.name key
    type := orJS d.type unknownLit
    status := orJS d.status onlineStatus
    lastSeen :=
      match d.lastSeen with
      | some t => if t = 0 then now else t
      | none => now }

/-- One snapshot-loop iteration: entries with an empty value are
skipped (`if (entry?.value)`), every other record is inserted into the
map with no inspection of its status. -/
def applyPresenceSnapshotEntry (m : PresenceMap) (key : String)
    (value : Option RawPresence) (now : Int) : PresenceMap :=
  match value with
  | none => m
  | some d =>
    let info := mkPresenceInfo d key now
    mapSet m info.agent info

/-- The whole snapshot loop over the listed entries, in order. -/
def presenceSnapshotLoad (m : PresenceMap)
    (entries : List (String × Option RawPresence)) (now : Int) : PresenceMap :=
  entries.foldl (fun acc e => applyPresenceSnapshotEntry acc e.1 e.2 now) m

/-- A KV watch delivery: `DEL`, `PURGE`, or a put carrying the entry's
value (`none` models an empty value, which the handler ignores). -/
inductive PresenceWatchEntry where
  | del (key : String)
  | purge (key : String)
  | put (key : String) (value : Option RawPresence)
  deriving DecidableEq

def applyPresenceWatch (m : PresenceMap) (e : PresenceWatchEntry) (now : Int) :
    PresenceMap :=
  match e with
  | .del k => mapDelete m k
  | .purge k => mapDelete m k
  | .put _ none => m
  | .put k (some d) =>
    let info := mkPresenceInfo d k now
    if info.status = offlineStatus then mapDelete m info.agent
    else mapSet m info.agent info

/-- The `PresenceInfo` built by the pub/sub fallback handler:
`agent` is the last subject segment (`msg.subject.split('.').pop()`)
defaulted to `'unknown'`, and `lastSeen` is always `Date.now()`. -/
def fallbackInfo (subjectLastSeg : String) (d : RawPresence) (now : Int) : PresenceInfo :=
  { agent := orJS (some subjectLastSeg) unknownLit
    type := orJS d.type unknownLit
    status := orJS d.status onlineStatus
    lastSeen := now }

def applyPresenceFallback (m : PresenceMap) (subjectLastSeg : String)
    (d : RawPresence) (now : Int) : PresenceMap :=
  let info := fallbackInfo subjectLastSeg d now
  if info.status = offlineStatus then mapDelete m info.agent
  else mapSet m info.agent info

/-- C4: starting from a map produced by a snapshot entry that put agent
`a` online, a watch put for `a` with status offline removes `a` from
the map, and a later fallback pub/sub record for `a` with status online
re-inserts `a` — the three sources are applied to the same map in
arrival order, and the earlier snapshot never overrides them. -/
theorem presence_reconciliation_order_applied
    (m0 : PresenceMap) (a : String) (ds dw df : RawPresence) (n0 n1 n2 : Int)
    (hsAgent : (mkPresenceInfo ds a n0).agent = a)
    (_hsOnline : (mkPresenceInfo ds a n0).status = onlineStatus)
    (hwAgent : (mkPresenceInfo dw a n1).agent = a)
    (hwOffline : (mkPresenceInfo dw a n1).status = offlineStatus)
    (hfAgent : (fallbackInfo a df n2).agent = a)
    (hfOnline : (fallbackInfo a df n2).status = onlineStatus) :
    (applyPresenceSnapshotEntry m0 a (some ds) n0) a = some (mkPresenceInfo ds a n0) ∧
    (applyPresenceWatch (applyPresenceSnapshotEntry m0 a (some ds) n0)
        (.put a (some dw)) n1) a = none ∧
    (applyPresenceFallback
        (applyPresenceWatch (applyPresenceSnapshotEntry m0 a (some ds) n0)
          (.put a (some dw)) n1)
        a df n2) a = some (fallbackInfo a df n2) := by
  have hne : onlineStatus ≠ offlineStatus := by decide
  refine ⟨?_, ?_, ?_⟩
  · simp [applyPresenceSnapshotEntry, mapSet, hsAgent]
  · simp [applyPresenceWatch, applyPresenceSnapshotEntry, hwOffline, hwAgent, mapDelete]
  · simp [applyPresenceFallback, hfOnline, hne, hfAgent, mapSet]

def wAlice : String := "alice"

def wHuman : String := "human"

/-- Concrete raw records for the presence witnesses. -/
def wSnapRaw : RawPresence :=
  { name := some wAlice, type := some wHuman, status := some onlineStatus, lastSeen := some 100 }

def wOffRaw : RawPresence :=
  { name := some wAlice, type := some wHuman, status := some offlineStatus, lastSeen := some 200 }

def wBackRaw : RawPresence :=
  { name := none, type := some wHuman, status := some onlineStatus, lastSeen := none }

def emptyPresenceMap : PresenceMap := fun _ => none

/-- Witness for `presence_reconciliation_order_applied`: the agent
`alice` snapshot-online, watch-put offline, fallback online. -/
theorem presence_reconciliation_order_applied_witness :
    ((mkPresenceInfo wSnapRaw wAlice 100).agent = wAlice ∧
     (mkPresenceInfo wSnapRaw wAlice 100).status = onlineStatus ∧
     (mkPresenceInfo wOffRaw wAlice 200).agent = wAlice ∧
     (mkPresenceInfo wOffRaw wAlice 200).status = offlineStatus ∧
     (fallbackInfo wAlice wBackRaw 300).agent = wAlice ∧
     (fallbackInfo wAlice wBackRaw 300).status = onlineStatus) ∧
    ((applyPresenceSnapshotEntry emptyPresenceMap wAlice (some wSnapRaw) 100) wAlice
        = some (mkPresenceInfo wSnapRaw wAlice 100) ∧
     (applyPresenceWatch
        (applyPresenceSnapshotEntry emptyPresenceMap wAlice (some wSnapRaw) 100)
        (.put wAlice (some wOffRaw)) 200) wAlice = none ∧
     (applyPresenceFallback
        (applyPresenceWatch
          (applyPresenceSnapshotEntry emptyPresenceMap wAlice (some wSnapRaw) 100)
          (.put wAlice (some wOffRaw)) 200)
        wAlice wBackRaw 300) wAlice = some (fallbackInfo wAlice wBackRaw 300)) :=
  ⟨⟨by decide, by decide, by decide, by decide, by decide, by decide⟩,
   presence_reconciliation_order_applied emptyPresenceMap wAlice wSnapRaw wOffRaw wBackRaw
     100 200 300 (by decide) (by decide) (by decide) (by decide) (by decide) (by decide)⟩

/-- C9: the snapshot loop inserts every non-empty entry regardless of
its status field — a snapshot whose last listed entry stores an
offline record still leaves that agent present in the map — while the
watch-put and fallback paths are the ones that map `status = offline`
to deletion. -/
theorem presence_snapshot_inserts_offline
    (m0 : PresenceMap) (entries : List (String × Option RawPresence))
    (key : String) (d : RawPresence) (now : Int)
    (hoff : (mkPresenceInfo d key now).status = offlineStatus) :
    (presenceSnapshotLoad m0 (entries ++ [(key, some d)]) now)
        ((mkPresenceInfo d key now).agent) = some (mkPresenceInfo d key now) ∧
    (applyPresenceWatch m0 (.put key (some d)) now)
        ((mkPresenceInfo d key now).agent) = none ∧
    (applyPresenceFallback m0 key d now) ((fallbackInfo key d now).agent) = none := by
  have hoffF : (fallbackInfo key d now).status = offlineStatus := hoff
  refine ⟨?_, ?_, ?_⟩
  · simp [presenceSnapshotLoad, List.foldl_append, applyPresenceSnapshotEntry, mapSet]
  · simp [applyPresenceWatch, hoff, mapDelete]
  · simp [applyPresenceFallback, hoffF, mapDelete]

/-- Witness for `presence_snapshot_inserts_offline`: a snapshot whose
only entry stores `alice` with status offline still inserts `alice`. -/
theorem presence_snapshot_inserts_offline_witness :
    ((mkPresenceInfo wOffRaw wAlice 400).status = offlineStatus) ∧
    ((presenceSnapshotLoad emptyPresenceMap [(wAlice, some wOffRaw)] 400)
        ((mkPresenceInfo wOffRaw wAlice 400).agent)
        = some (mkPresenceInfo wOffRaw wAlice 400) ∧
     (applyPresenceWatch emptyPresenceMap (.put wAlice (some wOffRaw)) 400)
        ((mkPresenceInfo wOffRaw wAlice 400).agent) = none ∧
     (applyPresenceFallback emptyPresenceMap wAlice wOffRaw 400)
        ((fallbackInfo wAlice wOffRaw 400).agent) = none) :=
  ⟨by decide,
   presence_snapshot_inserts_offline emptyPresenceMap [] wAlice wOffRaw 400 (by decide)⟩

/-! ### Connect-time event ordering (src/lib/nats-client.ts, connectNats)

After `await connect(...)` resolves, connectNats runs a single
synchronous continuation.  Each KV snapshot loader is an `(async () =>
...)()` IIFE that is *not* awaited: it runs until its first `await`
(opening the KV bucket view, a network round-trip) and suspends, after
which control returns to the main body, which opens all live
subscriptions with synchronous `nc.subscribe(...)` calls and finally
starts the heartbeat.  Because every `await` inside the IIFEs resolves
in a later event-loop turn, the whole synchronous trace below is
emitted before any deferred IIFE work resumes.

`connectNatsTrace` is the event trace of one connect: the synchronous
prefix followed by the resumed presence and telemetry tasks.  Each
resumed task drains its key listing, fetches the values, finishes its
snapshot (`snapshotLoadComplete`) and only then starts its KV watch.
The relative interleaving of the two resumed tasks is irrelevant to
the verified ordering facts, which only relate subscription openings
(all in the synchronous prefix) to snapshot completions (all in the
resumed tails); the trace fixes one interleaving. -/

inductive ClientEv where
  | statusMonitorStarted
  | presenceTaskStarted
  | kvOpenRequested (bucket : String)
  | presenceKeyListed (key : String)
  | presenceValueFetched (key : String)
  | telemetryTaskStarted
  | telemetryCacheLoaded
  | telemetryKeyListed (key : String)
  | telemetryValueFetched (key : String)
  | snapshotLoadComplete (bucket : String)
  | watchStarted (bucket : String)
  | subscriptionOpened (subject : String)
  | heartbeatStarted
  deriving DecidableEq

/-- Events emitted by the synchronous part of connectNats after the
connection await, in source order (lines 35–305 of nats-client.ts). -/
def connectNatsSyncTrace (userName : Option String) : List ClientEv :=
  .statusMonitorStarted ::
  .presenceTaskStarted ::
  .kvOpenRequested presenceBucket ::
  .subscriptionOpened channelSubject ::
  .subscriptionOpened systemSubject ::
  .subscriptionOpened presenceSubject ::
  .telemetryCacheLoaded ::
  .telemetryTaskStarted ::
  .kvOpenRequested telemetryBucket ::
  .subscriptionOpened telemetrySubject ::
  .subscriptionOpened receiptSubject ::
  (match userName with
   | some _ => [.heartbeatStarted]
   | none => [])

/-- The presence snapshot task after its first suspension: drain the
key listing, fetch each value, finish the snapshot, start the watch. -/
def presenceTaskResumedTrace (keys : List String) : List ClientEv :=
  keys.map .presenceKeyListed ++ keys.map .presenceValueFetched
    ++ [.snapshotLoadComplete presenceBucket, .watchStarted presenceBucket]

/-- The telemetry snapshot task after its first suspension. -/
def telemetryTaskResumedTrace (keys : List String) : List ClientEv :=
  keys.map .telemetryKeyListed ++ keys.map .telemetryValueFetched
    ++ [.snapshotLoadComplete telemetryBucket, .watchStarted telemetryBucket]

def connectNatsTrace (userName : Option String) (pKeys tKeys : List String) :
    List ClientEv :=
  connectNatsSyncTrace userName ++ presenceTaskResumedTrace pKeys
    ++ telemetryTaskResumedTrace tKeys

/-- `eventBefore hit marker tr` is true when an event satisfying `hit`
occurs in `tr` strictly before the first event satisfying `marker`
(or with no such marker at all). -/
def eventBefore (hit marker : ClientEv → Bool) : List ClientEv → Bool
  | [] => false
  | e :: rest => if marker e then false else if hit e then true else eventBefore hit marker rest

def isSubOpened : ClientEv → Bool
  | .subscriptionOpened _ => true
  | _ => false

def isSnapshotCompleteOf (bucket : String) : ClientEv → Bool
  | .snapshotLoadComplete b => b = bucket
  | _ => false

def isWatchStartedOf (bucket : String) : ClientEv → Bool
  | .watchStarted b => b = bucket
  | _ => false

def isPresenceTaskStarted : ClientEv → Bool
  | .presenceTaskStarted => true
  | _ => false

def isTelemetryTaskStarted : ClientEv → Bool
  | .telemetryTaskStarted => true
  | _ => false

def isSubOpenedOn (s : String) : ClientEv → Bool
  | .subscriptionOpened s2 => s2 = s
  | _ => false

def isSnapshotComplete : ClientEv → Bool
  | .snapshotLoadComplete _ => true
  | _ => false

/-- True exactly when some subscription is opened strictly after some
snapshot completion — the negation of "every subscription opening
precedes every snapshot completion". -/
def subOpenedAfterSnapshotComplete : List ClientEv → Bool
  | [] => false
  | .snapshotLoadComplete _ :: rest => rest.any isSubOpened
  | _ :: rest => subOpenedAfterSnapshotComplete rest

/-- C7 fails as stated: in a connect with no user name and empty KV
buckets, a live subscription is opened before the presence snapshot
load completes (and so before the telemetry one as well) — the
snapshot tasks are unawaited IIFEs running concurrently with the
subscription fan-out, not a phase that precedes it. -/
theorem connectNats_subscribes_before_snapshot :
    eventBefore isSubOpened (isSnapshotCompleteOf presenceBucket)
        (connectNatsTrace none [] []) = true ∧
    eventBefore isSubOpened (isSnapshotCompleteOf telemetryBucket)
        (connectNatsTrace none [] []) = true := by
  decide

theorem eventBefore_append_of_neutral (hit marker : ClientEv → Bool)
    (l rest : List ClientEv)
    (h : ∀ e ∈ l, marker e = false ∧ hit e = false) :
    eventBefore hit marker (l ++ rest) = eventBefore hit marker rest := by
  induction l with
  | nil => simp
  | cons e l ih =>
    have he := h e (List.mem_cons_self e l)
    have hrest : ∀ x ∈ l, marker x = false ∧ hit x = false :=
      fun x hx => h x (List.mem_cons_of_mem e hx)
    simp [eventBefore, he.1, he.2, ih hrest]

theorem subOpenedAfterSnapshotComplete_append (l rest : List ClientEv)
    (h : ∀ e ∈ l, isSnapshotComplete e = false) :
    subOpenedAfterSnapshotComplete (l ++ rest)
      = subOpenedAfterSnapshotComplete rest := by
  induction l with
  | nil => simp
  | cons e l ih =>
    have he := h e (List.mem_cons_self e l)
    have hrest : ∀ x ∈ l, isSnapshotComplete x = false :=
      fun x hx => h x (List.mem_cons_of_mem e hx)
    cases e <;> first
      | (simpa [subOpenedAfterSnapshotComplete] using ih hrest)
      | (simp [isSnapshotComplete] at he)

/-- Every event of the resumed presence task satisfies a pointwise
property of its four event shapes. -/
theorem presenceResumed_forall (p : ClientEv → Bool) (keys : List String)
    (h1 : ∀ k, p (.presenceKeyListed k) = false)
    (h2 : ∀ k, p (.presenceValueFetched k) = false)
    (h3 : p (.snapshotLoadComplete presenceBucket) = false)
    (h4 : p (.watchStarted presenceBucket) = false) :
    ∀ e ∈ presenceTaskResumedTrace keys, p e = false := by
  intro e he
  rcases List.mem_append.mp he with hAB | hC
  · rcases List.mem_append.mp hAB with hA | hB
    · rcases List.mem_map.mp hA with ⟨k, _, hk⟩
      rw [← hk]
      exact h1 k
    · rcases List.mem_map.mp hB with ⟨k, _, hk⟩
      rw [← hk]
      exact h2 k
  · rcases List.mem_cons.mp hC with hk | hC2
    · rw [hk]; exact h3
    · rcases List.mem_cons.mp hC2 with hk | hC3
      · rw [hk]; exact h4
      · exact absurd hC3 (List.not_mem_nil e)

/-- Every event of the resumed telemetry task satisfies a pointwise
property of its four event shapes. -/
theorem telemetryResumed_forall (p : ClientEv → Bool) (keys : List String)
    (h1 : ∀ k, p (.telemetryKeyListed k) = false)
    (h2 : ∀ k, p (.telemetryValueFetched k) = false)
    (h3 : p (.snapshotLoadComplete telemetryBucket) = false)
    (h4 : p (.watchStarted telemetryBucket) = false) :
    ∀ e ∈ telemetryTaskResumedTrace keys, p e = false := by
  intro e he
  rcases List.mem_append.mp he with hAB | hC
  · rcases List.mem_append.mp hAB with hA | hB
    · rcases List.mem_map.mp hA with ⟨k, _, hk⟩
      rw [← hk]
      exact h1 k
    · rcases List.mem_map.mp hB with ⟨k, _, hk⟩
      rw [← hk]
      exact h2 k
  · rcases List.mem_cons.mp hC with hk | hC2
    · rw [hk]; exact h3
    · rcases List.mem_cons.mp hC2 with hk | hC3
      · rw [hk]; exact h4
      · exact absurd hC3 (List.not_mem_nil e)

def emptyStr : String := ""

/-- The synchronous trace does not depend on the user name's value,
only on its presence. -/
theorem connectNatsSyncTrace_some (v : String) :
    connectNatsSyncTrace (some v) = connectNatsSyncTrace (some emptyStr) := rfl

theorem sync_no_snapshotComplete (userName : Option String) :
    ∀ e ∈ connectNatsSyncTrace userName, isSnapshotComplete e = false := by
  cases userName with
  | none => decide
  | some v => rw [connectNatsSyncTrace_some v]; decide

/-- C7 (amended): on every connect the subscription fan-out runs
concurrently with the snapshot loads and finishes first — the trace
has exactly five subscription openings and two snapshot completions,
and no subscription is opened after any snapshot completion, so all
five live subscriptions are open before either snapshot load
completes.  The presence loader is launched before any subscription is
opened; the telemetry loader is launched only after the channel,
system and presence subscriptions are already open and never after the
telemetry or receipt ones; and inside each loader the KV watch starts
only after that loader's snapshot loop has completed. -/
theorem connectNats_snapshot_concurrent_spec (userName : Option String)
    (pKeys tKeys : List String) :
    subOpenedAfterSnapshotComplete (connectNatsTrace userName pKeys tKeys) = false ∧
    (connectNatsTrace userName pKeys tKeys).countP isSubOpened = 5 ∧
    (connectNatsTrace userName pKeys tKeys).countP isSnapshotComplete = 2 ∧
    (connectNatsTrace userName pKeys tKeys).countP isPresenceTaskStarted = 1 ∧
    (connectNatsTrace userName pKeys tKeys).countP isTelemetryTaskStarted = 1 ∧
    eventBefore isSubOpened isPresenceTaskStarted
        (connectNatsTrace userName pKeys tKeys) = false ∧
    eventBefore isTelemetryTaskStarted (isSubOpenedOn channelSubject)
        (connectNatsTrace userName pKeys tKeys) = false ∧
    eventBefore isTelemetryTaskStarted (isSubOpenedOn systemSubject)
        (connectNatsTrace userName pKeys tKeys) = false ∧
    eventBefore isTelemetryTaskStarted (isSubOpenedOn presenceSubject)
        (connectNatsTrace userName pKeys tKeys) = false ∧
    eventBefore (isSubOpenedOn telemetrySubject) isTelemetryTaskStarted
        (connectNatsTrace userName pKeys tKeys) = false ∧
    eventBefore (isSubOpenedOn receiptSubject) isTelemetryTaskStarted
        (connectNatsTrace userName pKeys tKeys) = false ∧
    eventBefore (isWatchStartedOf presenceBucket) (isSnapshotCompleteOf presenceBucket)
        (presenceTaskResumedTrace pKeys) = false ∧
    eventBefore (isWatchStartedOf telemetryBucket) (isSnapshotCompleteOf telemetryBucket)
        (telemetryTaskResumedTrace tKeys) = false := by
  have htrace : connectNatsTrace userName pKeys tKeys
      = connectNatsSyncTrace userName
          ++ (presenceTaskResumedTrace pKeys ++ telemetryTaskResumedTrace tKeys) := by
    simp [connectNatsTrace, List.append_assoc]
  have hpsub : ∀ e ∈ presenceTaskResumedTrace pKeys, isSubOpened e = false :=
    presenceResumed_forall isSubOpened pKeys (fun _ => rfl) (fun _ => rfl) rfl rfl
  have htsub : ∀ e ∈ telemetryTaskResumedTrace tKeys, isSubOpened e = false :=
    telemetryResumed_forall isSubOpened tKeys (fun _ => rfl) (fun _ => rfl) rfl rfl
  have hcount0 : ∀ (p : ClientEv → Bool) (l : List ClientEv),
      (∀ e ∈ l, p e = false) → l.countP p = 0 := by
    intro p l h
    refine List.countP_eq_zero.mpr ?_
    intro e he
    simp [h e he]
  have hpmapsnapA : ∀ e ∈ pKeys.map ClientEv.presenceKeyListed,
      isSnapshotComplete e = false := by
    intro e he
    rcases List.mem_map.mp he with ⟨k, _, hk⟩
    rw [← hk]
    rfl
  have hpmapsnapB : ∀ e ∈ pKeys.map ClientEv.presenceValueFetched,
      isSnapshotComplete e = false := by
    intro e he
    rcases List.mem_map.mp he with ⟨k, _, hk⟩
    rw [← hk]
    rfl
  refine ⟨?_, ?_, ?_, ?_, ?_, ?_, ?_, ?_, ?_, ?_, ?_, ?_, ?_⟩
  · rw [htrace,
      subOpenedAfterSnapshotComplete_append _ _ (sync_no_snapshotComplete userName),
      presenceTaskResumedTrace, List.append_assoc,
      subOpenedAfterSnapshotComplete_append _ _ ?noSnapAB]
    case noSnapAB =>
      intro e he
      rcases List.mem_append.mp he with hA | hB
      · exact hpmapsnapA e hA
      · exact hpmapsnapB e hB
    show (ClientEv.watchStarted presenceBucket :: telemetryTaskResumedTrace tKeys).any
        isSubOpened = false
    rw [List.any_eq_false]
    intro e he
    rcases List.mem_cons.mp he with hk | hT
    · rw [hk]; simp [isSubOpened]
    · simp [htsub e hT]
  · rw [htrace, List.countP_append, List.countP_append,
      hcount0 isSubOpened _ hpsub, hcount0 isSubOpened _ htsub]
    have hsync : (connectNatsSyncTrace userName).countP isSubOpened = 5 := by
      cases userName with
      | none => decide
      | some v => rw [connectNatsSyncTrace_some v]; decide
    rw [hsync]
  · rw [htrace, List.countP_append, List.countP_append]
    have hsync : (connectNatsSyncTrace userName).countP isSnapshotComplete = 0 := by
      cases userName with
      | none => decide
      | some v => rw [connectNatsSyncTrace_some v]; decide
    have hpr : (presenceTaskResumedTrace pKeys).countP isSnapshotComplete = 1 := by
      rw [presenceTaskResumedTrace, List.countP_append, List.countP_append,
        hcount0 isSnapshotComplete _ hpmapsnapA, hcount0 isSnapshotComplete _ hpmapsnapB]
      decide
    have htr : (telemetryTaskResumedTrace tKeys).countP isSnapshotComplete = 1 := by
      rw [telemetryTaskResumedTrace, List.countP_append, List.countP_append,
        hcount0 isSnapshotComplete _ ?tA, hcount0 isSnapshotComplete _ ?tB]
      · decide
      case tA =>
        intro e he
        rcases List.mem_map.mp he with ⟨k, _, hk⟩
        rw [← hk]
        rfl
      case tB =>
        intro e he
        rcases List.mem_map.mp he with ⟨k, _, hk⟩
        rw [← hk]
        rfl
    rw [hsync, hpr, htr]
  · rw [htrace, List.countP_append, List.countP_append,
      hcount0 isPresenceTaskStarted _
        (presenceResumed_forall isPresenceTaskStarted pKeys
          (fun _ => rfl) (fun _ => rfl) rfl rfl),
      hcount0 isPresenceTaskStarted _
        (telemetryResumed_forall isPresenceTaskStarted tKeys
          (fun _ => rfl) (fun _ => rfl) rfl rfl)]
    have hsync : (connectNatsSyncTrace userName).countP isPresenceTaskStarted = 1 := by
      cases userName with
      | none => decide
      | some v => rw [connectNatsSyncTrace_some v]; decide
    rw [hsync]
  · rw [htrace, List.countP_append, List.countP_append,
      hcount0 isTelemetryTaskStarted _
        (presenceResumed_forall isTelemetryTaskStarted pKeys
          (fun _ => rfl) (fun _ => rfl) rfl rfl),
      hcount0 isTelemetryTaskStarted _
        (telemetryResumed_forall isTelemetryTaskStarted tKeys
          (fun _ => rfl) (fun _ => rfl) rfl rfl)]
    have hsync : (connectNatsSyncTrace userName).countP isTelemetryTaskStarted = 1 := by
      cases userName with
      | none => decide
      | some v => rw [connectNatsSyncTrace_some v]; decide
    rw [hsync]
  · rfl
  · rfl
  · rfl
  · rfl
  · rfl
  · rfl
  · rw [presenceTaskResumedTrace, List.append_assoc,
      eventBefore_append_of_neutral _ _ _ _ ?keysOk,
      eventBefore_append_of_neutral _ _ _ _ ?valsOk]
    · rfl
    case keysOk =>
      intro e he
      rcases List.mem_map.mp he with ⟨k, _, hk⟩
      subst hk
      exact ⟨rfl, rfl⟩
    case valsOk =>
      intro e he
      rcases List.mem_map.mp he with ⟨k, _, hk⟩
      subst hk
      exact ⟨rfl, rfl⟩
  · rw [telemetryTaskResumedTrace, List.append_assoc,
      eventBefore_append_of_neutral _ _ _ _ ?keysOk2,
      eventBefore_append_of_neutral _ _ _ _ ?valsOk2]
    · rfl
    case keysOk2 =>
      intro e he
      rcases List.mem_map.mp he with ⟨k, _, hk⟩
      subst hk
      exact ⟨rfl, rfl⟩
    case valsOk2 =>
      intro e he
      rcases List.mem_map.mp he with ⟨k, _, hk⟩
      subst hk
      exact ⟨rfl, rfl⟩

/-! ### SessionBridge (src/lib/nats-client.ts, requestSessionHistory /
sendSessionMessage)

Both operations are a bare `await nc.request(subject, payload,
{ timeout })` followed by `JSON.parse` of the reply — there is no
`try`/`catch` in either function.  The embedding makes the request
outcome explicit: the request promise either rejects with a timeout or
resolves with a body that `JSON.parse` either parses (`some`) or
throws on (`none`).  An exception escaping the function is an
`Except.error`. -/

inductive SessionRole where
  | user
  | assistant
  | toolResult
  deriving DecidableEq

structure SessionContentItem where
  type : String
  text : Option String
  name : Option String
  success : Option Bool
  deriving DecidableEq

structure SessionHistoryMessage where
  id : String
  role : SessionRole
  content : List SessionContentItem
  timestamp : String
  deriving DecidableEq

/-- `SessionHistoryResponse` of src/lib/types.ts.  Note that it has no
`success` or `error` field at all. -/
structure SessionHistoryResponse where
  sessionKey : String
  sessionId : String
  messages : List SessionHistoryMessage
  total : Int
  deriving DecidableEq

/-- `SessionSendResponse` of src/lib/types.ts. -/
structure SessionSendResponse where
  sessionKey : String
  reply : Option String
  error : Option String
  success : Bool
  deriving DecidableEq

/-- Outcome of the underlying `nc.request` round-trip: the promise
rejects on timeout, or resolves with a reply that parses to `some r`
or is malformed (`none`). -/
inductive BridgeOutcome (α : Type) where
  | timeout
  | reply (parsed : Option α)
  deriving DecidableEq

inductive BridgeError where
  | notConnected
  | requestTimeout
  | malformedReply
  deriving DecidableEq

def requestSessionHistory (nc : Option Unit)
    (outcome : BridgeOutcome SessionHistoryResponse) :
    Except BridgeError SessionHistoryResponse :=
  match nc with
  | none => .error .notConnected
  | some _ =>
    match outcome with
    | .timeout => .error .requestTimeout
    | .reply none => .error .malformedReply
    | .reply (some r) => .ok r

def sendSessionMessage (nc : Option Unit)
    (outcome : BridgeOutcome SessionSendResponse) :
    Except BridgeError SessionSendResponse :=
  match nc with
  | none => .error .notConnected
  | some _ =>
    match outcome with
    | .timeout => .error .requestTimeout
    | .reply none => .error .malformedReply
    | .reply (some r) => .ok r

/-- C8 fails as stated: on a live connection, a request timeout (and
likewise a malformed reply) makes both bridge operations propagate the
exception — neither returns any structured result, let alone one with
`success = false` and a populated `error`.  (`SessionHistoryResponse`
does not even carry such fields.) -/
theorem sessionBridge_timeout_propagates :
    requestSessionHistory (some ()) .timeout = .error .requestTimeout ∧
    requestSessionHistory (some ()) (.reply none) = .error .malformedReply ∧
    sendSessionMessage (some ()) .timeout = .error .requestTimeout ∧
    sendSessionMessage (some ()) (.reply none) = .error .malformedReply :=
  ⟨rfl, rfl, rfl, rfl⟩

/-- C8 (amended): for both SessionBridge operations, a request timeout
or a malformed reply raises an error that propagates to the caller
(as does calling without a connection); only a well-formed reply is
returned, and it is returned verbatim as parsed — the bridge adds no
error wrapping of its own. -/
theorem sessionBridge_error_propagation_spec
    (o : BridgeOutcome SessionHistoryResponse) (o' : BridgeOutcome SessionSendResponse)
    (r : SessionHistoryResponse) (r' : SessionSendResponse) :
    requestSessionHistory none o = .error .notConnected ∧
    requestSessionHistory (some ()) .timeout = .error .requestTimeout ∧
    requestSessionHistory (some ()) (.reply none) = .error .malformedReply ∧
    requestSessionHistory (some ()) (.reply (some r)) = .ok r ∧
    sendSessionMessage none o' = .error .notConnected ∧
    sendSessionMessage (some ()) .timeout = .error .requestTimeout ∧
    sendSessionMessage (some ()) (.reply none) = .error .malformedReply ∧
    sendSessionMessage (some ()) (.reply (some r')) = .ok r' :=
  ⟨rfl, rfl, rfl, rfl, rfl, rfl, rfl, rfl⟩

/-! ### The send endpoint (POST handler, api/send)

The handler authenticates, runs the per-sender rate limiter, then
validates the body.  The rate limiter keeps `{count, resetAt}` per
email: the window is re-armed whenever `now > resetAt` (or on first
sight), `count` is incremented on every request — also on requests that
are later rejected by validation — and the request is refused with 429
when the incremented count exceeds `RATE_LIMIT_MAX`. -/

def MAX_MESSAGE_SIZE : Nat := 64 * 1024

def RATE_LIMIT_WINDOW : Int := 60 * 1000

def RATE_LIMIT_MAX : Int := 30

structure RateEntry where
  count : Int
  resetAt : Int
  deriving DecidableEq

/-- One rate-limiter step for a single sender: returns the entry left
in the map and whether the request passed the limiter (`true` =
accepted, `false` = rejected with 429). -/
def ratePostStep (st : Option RateEntry) (now : Int) : RateEntry × Bool :=
  let rl : RateEntry :=
    match st with
    | some rl =>
      if now > rl.resetAt then { count := 0, resetAt := now + RATE_LIMIT_WINDOW } else rl
    | none => { count := 0, resetAt := now + RATE_LIMIT_WINDOW }
  let rl2 := { rl with count := rl.count + 1 }
  (rl2, !(decide (rl2.count > RATE_LIMIT_MAX)))

/-- A sequence of requests by one sender at the given times; yields the
acceptance flag of each request and the final limiter entry. -/
def runRatePosts (st : Option RateEntry) : List Int → List Bool × Option RateEntry
  | [] => ([], st)
  | t :: ts =>
    let s := ratePostStep st t
    let rest := runRatePosts (some s.1) ts
    (s.2 :: rest.1, rest.2)

/-- Body validation of the POST handler, in source order: missing or
non-string or empty text, oversized text, missing/empty subject or one
not starting with `mesh.channel.`, then the dm check, then accepted. -/
inductive BodyCheck where
  | missingText
  | tooLarge
  | invalidSubject
  | dmNotAllowed
  | ok
  deriving DecidableEq

def validateSendBody (text subject : Option String) : BodyCheck :=
  match text with
  | none => .missingText
  | some t =>
    if t = "" then .missingText
    else if t.length > MAX_MESSAGE_SIZE then .tooLarge
    else
      match subject with
      | none => .invalidSubject
      | some s =>
        if s = "" then .invalidSubject
        else if !(strStartsWith s meshChannelHead) then .invalidSubject
        else if strStartsWith s meshDmHead then .dmNotAllowed
        else .ok

inductive PostOutcome where
  | unauthorized401
  | rateLimited429
  | missingText400
  | tooLarge400
  | invalidSubject400
  | dmNotAllowed403
  | published
  deriving DecidableEq

/-- The POST handler for one sender: auth check, rate limiter, body
validation, publish.  The limiter entry is updated even when the body
is later rejected. -/
def postStep (user : Option String) (st : Option RateEntry) (now : Int)
    (text subject : Option String) : PostOutcome × Option RateEntry :=
  match user with
  | none => (.unauthorized401, st)
  | some _ =>
    let s := ratePostStep st now
    if s.2 then
      match validateSendBody text subject with
      | .missingText => (.missingText400, some s.1)
      | .tooLarge => (.tooLarge400, some s.1)
      | .invalidSubject => (.invalidSubject400, some s.1)
      | .dmNotAllowed => (.dmNotAllowed403, some s.1)
      | .ok => (.published, some s.1)
    else (.rateLimited429, some s.1)

theorem runRatePosts_within_window (ts : List Int) :
    ∀ (c R : Int), (∀ t ∈ ts, ¬ t > R) →
    runRatePosts (some ({ count := c, resetAt := R } : RateEntry)) ts
      = ((List.range ts.length).map
           (fun i : Nat => !(decide (c + (i : Int) + 1 > RATE_LIMIT_MAX))),
         some ({ count := c + (ts.length : Int), resetAt := R } : RateEntry)) := by
  induction ts with
  | nil =>
    intro c R _
    simp [runRatePosts]
  | cons t ts ih =>
    intro c R h
    have ht : ¬ t > R := h t (List.mem_cons_self t ts)
    have hrest : ∀ x ∈ ts, ¬ x > R := fun x hx => h x (List.mem_cons_of_mem t hx)
    have hstep : ratePostStep (some ({ count := c, resetAt := R } : RateEntry)) t
        = ({ count := c + 1, resetAt := R }, !(decide (c + 1 > RATE_LIMIT_MAX))) := by
      simp [ratePostStep, ht]
    have hmap : (List.range ts.length).map
          (fun i : Nat => !(decide ((c + 1) + (i : Int) + 1 > RATE_LIMIT_MAX)))
        = ((List.range ts.length).map (fun i : Nat => i + 1)).map
          (fun i : Nat => !(decide (c + (i : Int) + 1 > RATE_LIMIT_MAX))) := by
      rw [List.map_map]
      refine List.map_congr_left ?_
      intro i _
      simp only [Function.comp]
      have hia : c + ((i : Int) + 1) + 1 = (c + 1) + (i : Int) + 1 := by ring
      push_cast
      rw [hia]
    simp only [runRatePosts, hstep, ih (c + 1) R hrest]
    simp only [List.length_cons]
    rw [List.range_succ_eq_map]
    simp only [List.map_cons, hmap, Nat.succ_eq_add_one, Prod.mk.injEq, Nat.cast_zero,
      add_zero, Option.some.injEq, RateEntry.mk.injEq, Nat.cast_add, Nat.cast_one,
      true_and, and_true]
    ring

/-- C5: a single sender making 31 requests inside one 60-second window
has requests 1–30 accepted and exactly the 31st rejected by the rate
limiter, and a further request made after the window's `resetAt` has
passed is accepted again because the counter is re-armed at zero. -/
theorem rate_limiter_window_spec (t0 : Int) (rest : List Int) (tlate : Int)
    (hlen : rest.length = 30)
    (hwin : ∀ t ∈ rest, t ≤ t0 + RATE_LIMIT_WINDOW)
    (hlate : tlate > t0 + RATE_LIMIT_WINDOW) :
    (runRatePosts none (t0 :: rest ++ [tlate])).1
      = List.replicate 30 true ++ [false, true] := by
  have hflag1 : (!(decide ((0 : Int) + 1 > RATE_LIMIT_MAX))) = true := by decide
  have hstep0 : ratePostStep none t0
      = ({ count := (0 : Int) + 1, resetAt := t0 + RATE_LIMIT_WINDOW }, true) := by
    simp only [ratePostStep, hflag1]
  have happ : ∀ (st : Option RateEntry) (l1 l2 : List Int),
      (runRatePosts st (l1 ++ l2)).1
        = (runRatePosts st l1).1 ++ (runRatePosts (runRatePosts st l1).2 l2).1 := by
    intro st l1
    induction l1 generalizing st with
    | nil => intro l2; simp [runRatePosts]
    | cons t ts ih => intro l2; simp [runRatePosts, ih]
  have hwin2 : ∀ t ∈ rest, ¬ t > t0 + RATE_LIMIT_WINDOW := by
    intro t ht
    exact not_lt_of_le (hwin t ht)
  have hmid := runRatePosts_within_window rest ((0 : Int) + 1)
    (t0 + RATE_LIMIT_WINDOW) hwin2
  rw [hlen] at hmid
  have hflags : (List.range 30).map
        (fun i : Nat => !(decide ((0 : Int) + 1 + (i : Int) + 1 > RATE_LIMIT_MAX)))
      = List.replicate 29 true ++ [false] := by
    decide
  have hcnt : (0 : Int) + 1 + ((30 : Nat) : Int) = 31 := by norm_num
  have hlate2 : (runRatePosts
      (some ({ count := (31 : Int), resetAt := t0 + RATE_LIMIT_WINDOW } : RateEntry))
      [tlate]).1 = [true] := by
    have hflagl : (!(decide ((0 : Int) + 1 > RATE_LIMIT_MAX))) = true := by decide
    simp only [runRatePosts, ratePostStep, if_pos hlate, hflagl]
  have hmain : (runRatePosts none (t0 :: rest ++ [tlate])).1
      = true :: (runRatePosts
          (some ({ count := (0 : Int) + 1, resetAt := t0 + RATE_LIMIT_WINDOW } : RateEntry))
          (rest ++ [tlate])).1 := by
    simp [runRatePosts, hstep0]
  rw [hmain, happ, hmid]
  simp only [hflags, hcnt, hlate2]
  decide

/-- Witness for `rate_limiter_window_spec`: 31 requests at time 0 and
one more at time 60001. -/
theorem rate_limiter_window_spec_witness :
    ((List.replicate 30 (0 : Int)).length = 30 ∧
     (∀ t ∈ List.replicate 30 (0 : Int), t ≤ 0 + RATE_LIMIT_WINDOW) ∧
     (60001 : Int) > 0 + RATE_LIMIT_WINDOW) ∧
    (runRatePosts none ((0 : Int) :: List.replicate 30 (0 : Int) ++ [60001])).1
      = List.replicate 30 true ++ [false, true] :=
  ⟨⟨by decide, by decide, by decide⟩,
   rate_limiter_window_spec 0 (List.replicate 30 0) 60001 (by decide) (by decide) (by decide)⟩

theorem dm_head_not_channel_head (s : String)
    (h : strStartsWith s meshDmHead = true) :
    strStartsWith s meshChannelHead = false := by
  by_contra hch
  have hch2 : strStartsWith s meshChannelHead = true := by
    cases hcase : strStartsWith s meshChannelHead with
    | true => rfl
    | false => exact absurd hcase hch
  have h1 : List.IsPrefix meshDmHead.data s.data :=
    List.isPrefixOf_iff_prefix.mp h
  have h2 : List.IsPrefix meshChannelHead.data s.data :=
    List.isPrefixOf_iff_prefix.mp hch2
  rcases List.prefix_or_prefix_of_prefix h1 h2 with hp | hp
  · exact absurd hp (by decide)
  · exact absurd hp (by decide)

/-- C10: a subject beginning with `mesh.dm.` can never start with
`mesh.channel.`, so whenever an authenticated request reaches the
subject validation it is rejected by the earlier 400 Invalid-subject
check; the dedicated 403 DM branch is unreachable for every input to
the handler. -/
theorem post_dm_subject_unreachable_403 :
    (∀ (user : Option String) (st : Option RateEntry) (now : Int)
       (text subject : Option String),
      (postStep user st now text subject).1 ≠ .dmNotAllowed403) ∧
    (∀ (t s : String), t ≠ "" → t.length ≤ MAX_MESSAGE_SIZE →
      strStartsWith s meshDmHead = true →
      validateSendBody (some t) (some s) = .invalidSubject) := by
  have hval : ∀ (text subject : Option String),
      validateSendBody text subject ≠ .dmNotAllowed := by
    intro text subject
    match text with
    | none => simp [validateSendBody]
    | some t =>
      by_cases ht0 : t = ""
      · simp [validateSendBody, ht0]
      · by_cases htl : t.length > MAX_MESSAGE_SIZE
        · simp [validateSendBody, ht0, htl]
        · match subject with
          | none => simp [validateSendBody, ht0, htl]
          | some s =>
            by_cases hs0 : s = ""
            · simp [validateSendBody, ht0, htl, hs0]
            · by_cases hch : strStartsWith s meshChannelHead
              · have hdm : strStartsWith s meshDmHead = false := by
                  cases hdm2 : strStartsWith s meshDmHead with
                  | false => rfl
                  | true => rw [dm_head_not_channel_head s hdm2] at hch; exact absurd hch (by simp)
                simp [validateSendBody, ht0, htl, hs0, hch, hdm]
              · simp [validateSendBody, ht0, htl, hs0, hch]

  constructor
  · intro user st now text subject
    match user with
    | none => simp [postStep]
    | some u =>
      simp only [postStep]
      by_cases hrl : (ratePostStep st now).2 = true
      · rw [if_pos hrl]
        have hne := hval text subject
        cases hv : validateSendBody text subject with
        | missingText => simp [hv]
        | tooLarge => simp [hv]
        | invalidSubject => simp [hv]
        | dmNotAllowed => exact absurd hv hne
        | ok => simp [hv]
      · rw [if_neg hrl]
        simp
  · intro t s ht0 htl hdm
    have hch := dm_head_not_channel_head s hdm
    have ht0b : ¬ t = "" := ht0
    have htl2 : ¬ t.length > MAX_MESSAGE_SIZE := by omega
    have hs0 : ¬ s = "" := by
      intro hs
      rw [hs] at hdm
      exact absurd hdm (by decide)
    simp [validateSendBody, ht0b, htl2, hs0, hch]

/-- Concrete request used by the C10 witness. -/
def wTextStr : String := "hi"

def wDmStr : String := "mesh.dm.bob"

def wEmail : String := "dash@example.com"

def wUser : Option String := some wEmail

/-- Witness for `post_dm_subject_unreachable_403`: an authenticated,
non-rate-limited request with valid text and subject `mesh.dm.bob` is
rejected 400 Invalid subject, never 403. -/
theorem post_dm_subject_unreachable_403_witness :
    (wTextStr ≠ "" ∧ wTextStr.length ≤ MAX_MESSAGE_SIZE ∧
     strStartsWith wDmStr meshDmHead = true) ∧
    (postStep wUser none 0 (some wTextStr) (some wDmStr)).1 ≠ .dmNotAllowed403 ∧
    validateSendBody (some wTextStr) (some wDmStr) = .invalidSubject :=
  ⟨⟨by decide, by decide, by decide⟩,
   post_dm_subject_unreachable_403.1 wUser none 0 (some wTextStr) (some wDmStr),
   post_dm_subject_unreachable_403.2 wTextStr wDmStr (by decide) (by decide) (by decide)⟩

end MeshDashboard
